import Mathlib

/-!
Verification of the Trawell backend's connection-request core: the
connection-request ledger (`send`, `review`), the feed resolver
(`GET /user/feed`), the connection queries (`/user/connections`,
`/user/connections/pending`) and the profile-update validator.

The JavaScript routes are embedded as pure Lean functions over an explicit
`Store` (the MongoDB collections as lists, in insertion order).  Fallible
routes return `Except`; each error constructor corresponds to one error
response of the route.
-/

namespace Trawell

-- Decidable equality for route results, for concrete-input witnesses.
deriving instance DecidableEq for Except

/-- JS `String.prototype.toLowerCase`, character by character (the
library's `String.toLower` is not kernel-reducible). -/
def strToLower (s : String) : String :=
  ⟨s.data.map Char.toLower⟩

/-- Status values of a connection request (`models/connectionRequest.js`). -/
inductive Status
  | like
  | pass
  | accept
  | reject
deriving DecidableEq, Repr

/-- A stored user document (`models/user.js`).  `id` stands for Mongo's
`_id`; timestamps of users are irrelevant to the claims and omitted. -/
structure User where
  id : Nat
  firstName : String
  lastName : String
  age : Int
  gender : String
  image : String
  about : String
  password : String
deriving DecidableEq, Repr

/-- A stored connection-request document (`models/connectionRequest.js`,
fields per the schema documented in `routes/matches.js` and `comments.md`:
fromUserId, toUserId, status, timestamps). -/
structure ConnectionRequest where
  id : Nat
  fromUserId : Nat
  toUserId : Nat
  status : Status
  createdAt : Nat
  updatedAt : Nat
deriving DecidableEq, Repr

/-- The persistent state: the two collections in insertion (natural) order,
the id Mongo will assign to the next inserted document, and the current
clock used for timestamps. -/
structure Store where
  users : List User
  requests : List ConnectionRequest
  nextId : Nat
  now : Nat
deriving DecidableEq, Repr

/-- `User.findById` (Mongoose): first user whose `_id` matches. -/
def findUserById (st : Store) (uid : Nat) : Option User :=
  st.users.find? (fun u => u.id == uid)

/-- The `$or` duplicate predicate of `POST /request/send`
(`routes/matches.js` lines 80-91): a record matches when it links the two
users in either direction. -/
def pairMatches (fromId toId : Nat) (r : ConnectionRequest) : Bool :=
  (r.fromUserId == fromId && r.toUserId == toId) ||
  (r.fromUserId == toId && r.toUserId == fromId)

/-- `allowedStatus = ["like", "pass"]` check of `POST /request/send`. -/
def allowedSendStatus (s : Status) : Bool :=
  s == Status.like || s == Status.pass

/-- Modelled from the spec: `src/models/connectionRequest.js` is not among
the sources (only its callers are).  Per the spec's data-model invariant
`fromUserId ≠ toUserId` and "send(A,A,like) always fails (no self-request)",
the model's save hook rejects a request whose two sides coincide. -/
def connectionRequestSaveGuard (fromId toId : Nat) : Bool :=
  fromId != toId

/-- Modelled from the spec: `canSend(actorId, targetId)` of the
AuthorizationGate is true iff actorId differs from targetId; target
existence is checked separately by the ledger. -/
def canSend (actorId targetId : Nat) : Bool :=
  actorId != targetId

/-- Errors of `POST /request/send/:status/:toUserId`. -/
inductive SendErr
  | invalidAction
  | targetNotFound
  | duplicateRequest
  | selfRequest
deriving DecidableEq, Repr

/-- `POST /request/send/:status/:toUserId` (`routes/matches.js` lines
52-141): validate the action, check the target user exists, check for an
existing request in either direction, then create and save the record.
The save step enforces `connectionRequestSaveGuard` (see its doc). -/
def send (st : Store) (fromId toId : Nat) (status : Status) :
    Except SendErr (Store × ConnectionRequest) :=
  if !(allowedSendStatus status) then
    .error .invalidAction
  else
    match findUserById st toId with
    | none => .error .targetNotFound
    | some _ =>
      match st.requests.find? (pairMatches fromId toId) with
      | some _ => .error .duplicateRequest
      | none =>
        if connectionRequestSaveGuard fromId toId then
          let created : ConnectionRequest :=
            { id := st.nextId, fromUserId := fromId, toUserId := toId,
              status := status, createdAt := st.now, updatedAt := st.now }
          .ok ({ st with requests := st.requests ++ [created],
                         nextId := st.nextId + 1 }, created)
        else
          .error .selfRequest

/-- The two name fields selected for the sender in the review response
(`User.findById(...).select("firstName lastName")`). -/
structure NamePair where
  firstName : String
  lastName : String
deriving DecidableEq, Repr

/-- The field list of the `select` call in `POST /request/review`. -/
def reviewSelectFields : List String := ["firstName", "lastName"]

/-- `USER_SAVE_DATA` of `routes/user.js`: the safe projection fields. -/
def USER_SAVE_DATA : List String :=
  ["firstName", "lastName", "age", "gender", "image", "about"]

/-- A user document projected to `_id` plus the `USER_SAVE_DATA` fields
(Mongo includes `_id` in a positive projection by default). -/
structure PublicProfile where
  id : Nat
  firstName : String
  lastName : String
  age : Int
  gender : String
  image : String
  about : String
deriving DecidableEq, Repr

/-- Projection of a user to the public-safe field set. -/
def publicProjection (u : User) : PublicProfile :=
  { id := u.id, firstName := u.firstName, lastName := u.lastName,
    age := u.age, gender := u.gender, image := u.image, about := u.about }

/-- Errors of `POST /request/review/:status/:requestId`. -/
inductive ReviewErr
  | invalidStatus
  | requestNotFound
  | senderMissing
deriving DecidableEq, Repr

/-- The combined lookup predicate of `POST /request/review`
(`routes/matches.js` lines 189-193): `_id`, `toUserId` and `status = like`
in a single `findOne`. -/
def reviewLookup (actorId requestId : Nat) (r : ConnectionRequest) : Bool :=
  r.id == requestId && r.toUserId == actorId && r.status == Status.like

/-- `POST /request/review/:status/:requestId` (`routes/matches.js` lines
168-238): validate the decision, look the record up with the combined
predicate, resolve the sender's first and last name, set the status and
save (Mongoose `timestamps` refresh `updatedAt` on save). -/
def review (st : Store) (actorId requestId : Nat) (decision : Status) :
    Except ReviewErr (Store × ConnectionRequest × NamePair) :=
  if !(decision == Status.accept || decision == Status.reject) then
    .error .invalidStatus
  else
    match st.requests.find? (reviewLookup actorId requestId) with
    | none => .error .requestNotFound
    | some cr =>
      match findUserById st cr.fromUserId with
      | none => .error .senderMissing
      | some sender =>
        let updated : ConnectionRequest :=
          { cr with status := decision, updatedAt := st.now }
        let st2 : Store :=
          { st with requests :=
              st.requests.map (fun r => if r.id == cr.id then updated else r) }
        .ok (st2, updated,
             { firstName := sender.firstName, lastName := sender.lastName })

/-- `GET /user/connections/pending` (`routes/user.js` lines 140-166):
records addressed to the user with status `like`, with the sender populated
to the public projection. -/
def pendingFor (st : Store) (uid : Nat) :
    List (ConnectionRequest × Option PublicProfile) :=
  (st.requests.filter
      (fun r => r.toUserId == uid && r.status == Status.like)).map
    (fun r => (r, (findUserById st r.fromUserId).map publicProjection))

/-- `GET /user/connections` (`routes/user.js` lines 183-220): accepted
records involving the user, mapped to the populated public projection of
the other participant. -/
def connectionsFor (st : Store) (uid : Nat) : List PublicProfile :=
  (st.requests.filter
      (fun r => (r.fromUserId == uid && r.status == Status.accept) ||
                (r.toUserId == uid && r.status == Status.accept))).filterMap
    (fun r =>
      let other := if r.fromUserId == uid then r.toUserId else r.fromUserId
      (findUserById st other).map publicProjection)

/-- JS `parseInt(req.query.page) || 1`: an absent or unparseable parameter
(`none`) and the falsy value 0 both fall back to the default. -/
def effectivePage (pageQ : Option Int) : Int :=
  match pageQ with
  | none => 1
  | some p => if p == 0 then 1 else p

/-- JS `parseInt(req.query.limit) || 10` before the cap. -/
def effectiveLimitRaw (limitQ : Option Int) : Int :=
  match limitQ with
  | none => 10
  | some l => if l == 0 then 10 else l

/-- `limit = limit > 50 ? 50 : limit` (`routes/user.js` line 65): only the
upper bound is capped. -/
def effectiveLimit (limitQ : Option Int) : Int :=
  let l := effectiveLimitRaw limitQ
  if l > 50 then 50 else l

/-- `skip = (page - 1) * limit` (`routes/user.js` line 66). -/
def feedSkip (pageQ limitQ : Option Int) : Int :=
  (effectivePage pageQ - 1) * effectiveLimit limitQ

/-- The exclusion ids of `GET /user/feed` (`routes/user.js` lines 70-83):
for every request involving the user, both participant ids are added. -/
def hideUserFromFeed (st : Store) (uid : Nat) : List Nat :=
  (st.requests.filter
      (fun r => r.fromUserId == uid || r.toUserId == uid)).foldr
    (fun r acc => r.fromUserId :: r.toUserId :: acc) []

/-- The `$and` candidate predicate of the feed query: not the logged-in
user and not in the exclusion set. -/
def feedCandidate (st : Store) (uid : Nat) (u : User) : Bool :=
  u.id != uid && !((hideUserFromFeed st uid).contains u.id)

/-- `GET /user/feed` (`routes/user.js` lines 57-116): candidates in the
collection's natural (insertion) order, projected to the safe fields,
with `skip` and `limit` applied (Mongo treats a negative limit as a single
batch of its absolute value; a non-positive skip skips nothing). -/
def getFeedUsers (st : Store) (uid : Nat) (pageQ limitQ : Option Int) :
    List PublicProfile :=
  (((st.users.filter (feedCandidate st uid)).map publicProjection).drop
      (feedSkip pageQ limitQ).toNat).take (effectiveLimit limitQ).natAbs

/-- JS truthiness of an optional field value, for the `!field` checks of
the update validator (absent, the empty string and 0 are falsy). -/
inductive JsVal
  | str (s : String)
  | num (n : Int)
deriving DecidableEq, Repr

def truthy : Option JsVal → Bool
  | none => false
  | some (.str s) => s != ""
  | some (.num n) => n != 0

/-- Key lookup in a JS request body. -/
def getField (body : List (String × JsVal)) (k : String) : Option JsVal :=
  (body.find? (fun p => p.1 == k)).map (fun p => p.2)

/-- `ALLOWED_UPDATES` of `utilis/validation.js`. -/
def ALLOWED_UPDATES : List String :=
  ["firstName", "lastName", "gender", "image", "age", "about"]

/-- `validUpdateData` (`utilis/validation.js` lines 111-157): computes
`isEditAllowed` (every body key is whitelisted), throws on the individual
field validations, and returns `isEditAllowed`.  A thrown error is
`.error`; a numeric age outside 18..80 throws, a non-numeric or absent age
passes (JS comparisons with undefined or a non-numeric string are false);
a non-string gender makes `gender.toLowerCase()` throw a TypeError. -/
def validUpdateData (body : List (String × JsVal)) : Except String Bool :=
  let isEditAllowed :=
    (body.map (fun p => p.1)).all (fun k => ALLOWED_UPDATES.contains k)
  if !truthy (getField body "firstName") then
    .error "First name is required"
  else if !truthy (getField body "lastName") then
    .error "Last name is required"
  else if !truthy (getField body "gender") then
    .error "Gender is required"
  else
    match getField body "gender" with
    | some (.str g) =>
      if !(["male", "female", "others"].contains (strToLower g)) then
        .error "Gender must be one of: male, female, or others"
      else
        match getField body "age" with
        | some (.num n) =>
          if n < 18 || n > 80 then
            .error "Age must be between 18 and 80 years"
          else
            .ok isEditAllowed
        | _ => .ok isEditAllowed
    | _ => .error "TypeError"

/-- The field-copy loop of `PATCH /user/:id` (`routes/user.js` lines
362-364): each body key is written onto the user document. -/
def applyUpdates (u : User) (body : List (String × JsVal)) : User :=
  body.foldl
    (fun acc kv =>
      match kv with
      | ("firstName", .str s) => { acc with firstName := s }
      | ("lastName", .str s) => { acc with lastName := s }
      | ("gender", .str s) => { acc with gender := s }
      | ("image", .str s) => { acc with image := s }
      | ("about", .str s) => { acc with about := s }
      | ("age", .num n) => { acc with age := n }
      | _ => acc)
    u

/-- `PATCH /user/:id` (`routes/user.js` lines 349-381): the route throws
`"Invalid update data provided"` when `validUpdateData` returns false, and
only otherwise copies the body fields onto the user and saves. -/
def updateProfile (u : User) (body : List (String × JsVal)) :
    Except String User :=
  match validUpdateData body with
  | .error e => .error e
  | .ok allowed =>
    if !allowed then .error "Invalid update data provided"
    else .ok (applyUpdates u body)

/-- Demo data for concrete witnesses. -/
def annUser : User :=
  { id := 1, firstName := "Ann", lastName := "Ace", age := 30,
    gender := "female", image := "http://img/a", about := "hill walks",
    password := "hash-a" }

def bobUser : User :=
  { id := 2, firstName := "Bob", lastName := "Best", age := 28,
    gender := "male", image := "http://img/b", about := "city trips",
    password := "hash-b" }

def calUser : User :=
  { id := 3, firstName := "Calo", lastName := "Cade", age := 41,
    gender := "others", image := "http://img/c", about := "beaches",
    password := "hash-c" }

/-- A like request from Ann to Bob, already stored. -/
def demoLikeReq : ConnectionRequest :=
  { id := 10, fromUserId := 1, toUserId := 2, status := Status.like,
    createdAt := 5, updatedAt := 5 }

/-- Store with the pending Ann→Bob like. -/
def demoStore : Store :=
  { users := [annUser, bobUser, calUser], requests := [demoLikeReq],
    nextId := 11, now := 7 }

/-- Store with no requests, for the send/review scenario. -/
def demoStore0 : Store :=
  { users := [annUser, bobUser, calUser], requests := [],
    nextId := 10, now := 5 }

/-- The Ann→Bob request after Bob accepts it on `demoStore`. -/
def demoAcceptedReq : ConnectionRequest :=
  { id := 10, fromUserId := 1, toUserId := 2, status := Status.accept,
    createdAt := 5, updatedAt := 7 }

/-- `demoStore` after `review demoStore 2 10 accept`. -/
def demoStoreAfter : Store :=
  { users := [annUser, bobUser, calUser], requests := [demoAcceptedReq],
    nextId := 11, now := 7 }

/-- The record created by `send demoStore0 1 2 like`. -/
def demoScenarioReq : ConnectionRequest :=
  { id := 10, fromUserId := 1, toUserId := 2, status := Status.like,
    createdAt := 5, updatedAt := 5 }

/-- `demoStore0` after `send demoStore0 1 2 like`. -/
def demoScenarioStore1 : Store :=
  { users := [annUser, bobUser, calUser], requests := [demoScenarioReq],
    nextId := 11, now := 5 }

/-- The scenario record after Bob accepts it. -/
def demoScenarioAccepted : ConnectionRequest :=
  { id := 10, fromUserId := 1, toUserId := 2, status := Status.accept,
    createdAt := 5, updatedAt := 5 }

/-- `demoScenarioStore1` after `review _ 2 10 accept`. -/
def demoScenarioStore2 : Store :=
  { users := [annUser, bobUser, calUser], requests := [demoScenarioAccepted],
    nextId := 11, now := 5 }

/-- An update body that carries a key outside the whitelist. -/
def badUpdateBody : List (String × JsVal) :=
  [("firstName", JsVal.str "John"), ("lastName", JsVal.str "Doe"),
   ("gender", JsVal.str "male"), ("emailId", JsVal.str "x@y.z")]

/- ------------------------------------------------------------------ -/
/- Helper lemmas                                                       -/
/- ------------------------------------------------------------------ -/

theorem mem_foldr_pair {l : List ConnectionRequest} {x : Nat} :
    x ∈ l.foldr (fun r acc => r.fromUserId :: r.toUserId :: acc) [] ↔
    ∃ r ∈ l, x = r.fromUserId ∨ x = r.toUserId := by
  induction l with
  | nil => simp
  | cons a t ih =>
    constructor
    · intro hx
      rw [List.foldr_cons, List.mem_cons] at hx
      rcases hx with hx | hx
      · exact ⟨a, List.mem_cons_self a t, Or.inl hx⟩
      rw [List.mem_cons] at hx
      rcases hx with hx | hx
      · exact ⟨a, List.mem_cons_self a t, Or.inr hx⟩
      · obtain ⟨r, hr, hxr⟩ := ih.mp hx
        exact ⟨r, List.mem_cons_of_mem a hr, hxr⟩
    · rintro ⟨r, hr, hxr⟩
      rw [List.mem_cons] at hr
      rw [List.foldr_cons, List.mem_cons, List.mem_cons]
      rcases hr with rfl | hr
      · rcases hxr with hx | hx
        · exact Or.inl hx
        · exact Or.inr (Or.inl hx)
      · exact Or.inr (Or.inr (ih.mpr ⟨r, hr, hxr⟩))

theorem mem_hideUserFromFeed {st : Store} {uid x : Nat} :
    x ∈ hideUserFromFeed st uid ↔
    ∃ r ∈ st.requests, (r.fromUserId = uid ∨ r.toUserId = uid) ∧
      (x = r.fromUserId ∨ x = r.toUserId) := by
  unfold hideUserFromFeed
  rw [mem_foldr_pair]
  constructor
  · rintro ⟨r, hr, hx⟩
    rw [List.mem_filter] at hr
    refine ⟨r, hr.1, ?_, hx⟩
    have := hr.2
    simp at this
    exact this
  · rintro ⟨r, hr, hinv, hx⟩
    refine ⟨r, ?_, hx⟩
    rw [List.mem_filter]
    exact ⟨hr, by simp [hinv]⟩

theorem validUpdateData_ok {body : List (String × JsVal)} {b : Bool}
    (h : validUpdateData body = .ok b) :
    b = (body.map (fun p => p.1)).all (fun k => ALLOWED_UPDATES.contains k) := by
  unfold validUpdateData at h
  split at h
  · exact absurd h (by simp)
  · split at h
    · exact absurd h (by simp)
    · split at h
      · exact absurd h (by simp)
      · split at h
        · split at h
          · exact absurd h (by simp)
          · split at h
            · split at h
              · exact absurd h (by simp)
              · injection h with h
                exact h.symm
            · injection h with h
              exact h.symm
        · exact absurd h (by simp)

theorem pairMatches_comm (A B : Nat) (r : ConnectionRequest) :
    pairMatches A B r = pairMatches B A r := by
  unfold pairMatches
  exact Bool.or_comm _ _

theorem send_ok_unfold {st : Store} {A B : Nat} {act : Status} {st1 : Store}
    {created : ConnectionRequest}
    (h : send st A B act = Except.ok (st1, created)) :
    allowedSendStatus act = true ∧ A ≠ B ∧
    (∃ u ∈ st.users, u.id = B) ∧
    st.requests.find? (pairMatches A B) = none ∧
    created = { id := st.nextId, fromUserId := A, toUserId := B,
                status := act, createdAt := st.now, updatedAt := st.now } ∧
    st1 = { st with requests := st.requests ++ [created],
                    nextId := st.nextId + 1 } := by
  unfold send at h
  split at h
  · exact absurd h (by simp)
  next hact =>
    rw [Bool.not_eq_true', Bool.not_eq_false] at hact
    split at h
    · exact absurd h (by simp)
    next u hu =>
      split at h
      next r hr => exact absurd h (by simp)
      next hnone =>
        split at h
        next hguard =>
          simp only [Except.ok.injEq, Prod.mk.injEq] at h
          obtain ⟨h1, h2⟩ := h
          have huid : u.id = B := by
            have := List.find?_some hu
            simpa using this
          refine ⟨hact, ?_, ⟨u, List.mem_of_find?_eq_some hu, huid⟩,
                  hnone, h2.symm, ?_⟩
          · intro hEq
            unfold connectionRequestSaveGuard at hguard
            rw [hEq] at hguard
            simp at hguard
          · rw [← h1, h2]
        · exact absurd h (by simp)

theorem review_ok_unfold {st : Store} {actor rid : Nat} {d : Status}
    {st2 : Store} {rec2 : ConnectionRequest} {np : NamePair}
    (h : review st actor rid d = Except.ok (st2, rec2, np)) :
    (d == Status.accept || d == Status.reject) = true ∧
    ∃ cr ∈ st.requests, ∃ sender ∈ st.users,
      st.requests.find? (reviewLookup actor rid) = some cr ∧
      findUserById st cr.fromUserId = some sender ∧
      rec2 = { cr with status := d, updatedAt := st.now } ∧
      st2 = { st with requests :=
        st.requests.map fun r => if r.id == cr.id then rec2 else r } ∧
      np = { firstName := sender.firstName, lastName := sender.lastName } := by
  unfold review at h
  split at h
  · exact absurd h (by simp)
  next hval =>
    rw [Bool.not_eq_true', Bool.not_eq_false] at hval
    split at h
    next hnone => exact absurd h (by simp)
    next cr hf =>
      split at h
      next hu => exact absurd h (by simp)
      next sender hu =>
        simp only [Except.ok.injEq, Prod.mk.injEq] at h
        obtain ⟨h1, h2, h3⟩ := h
        refine ⟨hval, cr, List.mem_of_find?_eq_some hf, sender,
                List.mem_of_find?_eq_some hu, hf, hu, h2.symm, ?_, h3.symm⟩
        rw [← h1, h2]

theorem findUserById_of_exists {st : Store} {x : Nat}
    (h : ∃ u ∈ st.users, u.id = x) :
    ∃ u, findUserById st x = some u ∧ u.id = x := by
  obtain ⟨u, hu, huid⟩ := h
  have hsome : (findUserById st x).isSome = true := by
    unfold findUserById
    rw [List.find?_isSome]
    exact ⟨u, hu, by simp [huid]⟩
  obtain ⟨v, hv⟩ := Option.isSome_iff_exists.mp hsome
  refine ⟨v, hv, ?_⟩
  have := List.find?_some hv
  simpa using this

theorem connectionsFor_mem_spec {st : Store} {uid : Nat} {p : PublicProfile}
    (hinv : ∀ r ∈ st.requests, r.fromUserId ≠ r.toUserId)
    (hp : p ∈ connectionsFor st uid) :
    p.id ≠ uid ∧ ∃ r ∈ st.requests, r.status = Status.accept ∧
      ((r.fromUserId = uid ∧ r.toUserId = p.id) ∨
       (r.toUserId = uid ∧ r.fromUserId = p.id)) := by
  unfold connectionsFor at hp
  rw [List.mem_filterMap] at hp
  obtain ⟨r, hr, hfr⟩ := hp
  rw [List.mem_filter] at hr
  obtain ⟨hrmem, hrpred⟩ := hr
  simp only [Bool.or_eq_true, Bool.and_eq_true, beq_iff_eq] at hrpred
  simp only [] at hfr
  rw [Option.map_eq_some'] at hfr
  obtain ⟨u, hu, hup⟩ := hfr
  have hpid : p.id = u.id := by rw [← hup]; rfl
  have huid := List.find?_some hu
  rw [beq_iff_eq] at huid
  rcases hrpred with ⟨hfrom, hacc⟩ | ⟨hto, hacc⟩
  · have hother : u.id = r.toUserId := by
      rw [huid, if_pos (by simp [hfrom])]
    refine ⟨?_, r, hrmem, hacc, Or.inl ⟨hfrom, by rw [hpid, hother]⟩⟩
    rw [hpid, hother]
    intro hEq
    exact hinv r hrmem (by rw [hfrom, hEq])
  · by_cases hfu : r.fromUserId = uid
    · exact absurd (hfu.trans hto.symm) (hinv r hrmem)
    · have hother : u.id = r.fromUserId := by
        rw [huid, if_neg (by simp [hfu])]
      refine ⟨?_, r, hrmem, hacc, Or.inr ⟨hto, by rw [hpid, hother]⟩⟩
      rw [hpid, hother]
      intro hEq
      exact hfu hEq

/- ------------------------------------------------------------------ -/
/- Claims                                                              -/
/- ------------------------------------------------------------------ -/

/-- C1: a successful `send(A,B,action)` stores a record matching the
unordered pair {A,B}; and as long as any record for the unordered pair
exists (and both users exist, as they must for the sends to reach the
duplicate check), every further send for the pair — in either direction
and with either allowed action — fails with DuplicateRequest, so no new
record is created; the duplicate lookup matches records in both
directions. -/
theorem duplicate_send_symmetric (st : Store) (A B : Nat) (_hAB : A ≠ B) :
    (∀ (act : Status) (st1 : Store) (created : ConnectionRequest),
        send st A B act = Except.ok (st1, created) →
        created ∈ st1.requests ∧ pairMatches A B created = true) ∧
    (∀ x : Status, allowedSendStatus x = true →
      (findUserById st A).isSome →
      (findUserById st B).isSome →
      (∃ r ∈ st.requests, pairMatches A B r = true) →
      send st A B x = Except.error SendErr.duplicateRequest ∧
      send st B A x = Except.error SendErr.duplicateRequest) := by
  constructor
  · intro act st1 created h
    obtain ⟨-, -, -, -, hcreated, hst1⟩ := send_ok_unfold h
    constructor
    · rw [hst1]
      simp
    · rw [hcreated]
      simp [pairMatches]
  · intro x hx hA hB hdup
    have hfind : ∀ C D : Nat, (∃ r ∈ st.requests, pairMatches C D r = true) →
        ∃ r2, st.requests.find? (pairMatches C D) = some r2 := by
      intro C D ⟨r, hr, hpr⟩
      have hsome : (st.requests.find? (pairMatches C D)).isSome = true :=
        List.find?_isSome.mpr ⟨r, hr, hpr⟩
      exact Option.isSome_iff_exists.mp hsome
    have hdup2 : ∃ r ∈ st.requests, pairMatches B A r = true := by
      obtain ⟨r, hr, hpr⟩ := hdup
      exact ⟨r, hr, by rw [← pairMatches_comm]; exact hpr⟩
    constructor
    · obtain ⟨uB, huB⟩ := Option.isSome_iff_exists.mp hB
      obtain ⟨r2, hr2⟩ := hfind A B hdup
      unfold send
      rw [if_neg (by simp [hx]), huB, hr2]
    · obtain ⟨uA, huA⟩ := Option.isSome_iff_exists.mp hA
      obtain ⟨r2, hr2⟩ := hfind B A hdup2
      unfold send
      rw [if_neg (by simp [hx]), huA, hr2]

theorem duplicate_send_symmetric_witness :
    send demoStore 1 2 Status.like = Except.error SendErr.duplicateRequest ∧
    send demoStore 2 1 Status.pass = Except.error SendErr.duplicateRequest := by
  refine ⟨?_, ?_⟩
  · exact ((duplicate_send_symmetric demoStore 1 2 (by decide)).2 Status.like
      (by decide) (by decide) (by decide)
      ⟨demoLikeReq, by decide, by decide⟩).1
  · exact ((duplicate_send_symmetric demoStore 2 1 (by decide)).2 Status.pass
      (by decide) (by decide) (by decide)
      ⟨demoLikeReq, by decide, by decide⟩).1

/-- C2: for a decision in {accept, reject}, review fails with
RequestNotFound exactly when no stored record satisfies the single
combined lookup id = requestId ∧ toUserId = actorId ∧ status = like; in
particular a record's sender is never matched (the lookup requires
toUserId = actor) and, after a successful review, reviewing the same
request id again always fails with RequestNotFound. -/
theorem review_combined_lookup (st : Store) (actor rid : Nat) (d : Status)
    (hd : d = Status.accept ∨ d = Status.reject) :
    (review st actor rid d = Except.error ReviewErr.requestNotFound ↔
      ¬∃ r ∈ st.requests, r.id = rid ∧ r.toUserId = actor ∧
        r.status = Status.like) ∧
    (∀ (st2 : Store) (rec2 : ConnectionRequest) (np : NamePair),
      review st actor rid d = Except.ok (st2, rec2, np) →
      ∀ (actor2 : Nat) (d2 : Status),
        d2 = Status.accept ∨ d2 = Status.reject →
        review st2 actor2 rid d2 = Except.error ReviewErr.requestNotFound) := by
  have hdv : (d == Status.accept || d == Status.reject) = true := by
    rcases hd with rfl | rfl <;> rfl
  constructor
  · unfold review
    rw [if_neg (by simp [hdv])]
    cases hf : st.requests.find? (reviewLookup actor rid) with
    | none =>
      constructor
      · rintro - ⟨r, hr, h1, h2, h3⟩
        exact absurd (List.find?_eq_none.mp hf r hr)
          (by simp [reviewLookup, h1, h2, h3])
      · intro _
        rfl
    | some cr =>
      have hcr := List.find?_some hf
      simp only [reviewLookup, Bool.and_eq_true, beq_iff_eq] at hcr
      obtain ⟨⟨hcr1, hcr2⟩, hcr3⟩ := hcr
      have hex : ∃ r ∈ st.requests, r.id = rid ∧ r.toUserId = actor ∧
          r.status = Status.like :=
        ⟨cr, List.mem_of_find?_eq_some hf, hcr1, hcr2, hcr3⟩
      cases hu : findUserById st cr.fromUserId with
      | none =>
        constructor
        · intro hcontra
          simp [hu] at hcontra
        · intro hne
          exact absurd hex hne
      | some sender =>
        constructor
        · intro hcontra
          simp [hu] at hcontra
        · intro hne
          exact absurd hex hne
  · intro st2 rec2 np hok actor2 d2 hd2
    obtain ⟨-, cr, hcrmem, sender, -, hf, -, hrec2, hst2, -⟩ :=
      review_ok_unfold hok
    have hcr := List.find?_some hf
    simp only [reviewLookup, Bool.and_eq_true, beq_iff_eq] at hcr
    obtain ⟨⟨hcr1, hcr2⟩, hcr3⟩ := hcr
    have hd2v : (d2 == Status.accept || d2 == Status.reject) = true := by
      rcases hd2 with rfl | rfl <;> rfl
    have hfind2 : st2.requests.find? (reviewLookup actor2 rid) = none := by
      rw [hst2]
      rw [List.find?_eq_none]
      intro r2 hr2
      rw [List.mem_map] at hr2
      obtain ⟨r, hr, hfr⟩ := hr2
      by_cases hid : (r.id == cr.id) = true
      · rw [if_pos hid] at hfr
        rw [← hfr, hrec2]
        simp only [reviewLookup]
        rcases hd with rfl | rfl <;> simp
      · rw [if_neg hid] at hfr
        rw [← hfr]
        simp only [reviewLookup]
        have : (r.id == rid) = false := by
          rw [← hcr1]
          exact Bool.not_eq_true _ ▸ (by simpa using hid)
        rw [this]
        simp
    unfold review
    rw [if_neg (by simp [hd2v]), hfind2]

theorem review_combined_lookup_witness :
    review demoStore 1 10 Status.accept =
      Except.error ReviewErr.requestNotFound :=
  ((review_combined_lookup demoStore 1 10 Status.accept
    (Or.inl rfl)).1).mpr (by decide)

/-- C7 counterexample: on `demoStore`, Bob's successful review of Ann's
like returns only the sender's firstName and lastName — the selected field
list of the review response differs from the six-field public projection
(`about`, for instance, is projected for feeds but absent here). -/
theorem review_projection_cex :
    review demoStore 2 10 Status.accept =
      Except.ok (demoStoreAfter, demoAcceptedReq,
        { firstName := "Ann", lastName := "Ace" }) ∧
    "about" ∈ USER_SAVE_DATA ∧ "about" ∉ reviewSelectFields ∧
    reviewSelectFields ≠ USER_SAVE_DATA := by
  refine ⟨by decide, by decide, by decide, by decide⟩

/-- C7 amended: on every successful review the record's status is set to
the decision, its updatedAt timestamp is refreshed, the record is
persisted, and the return value contains the updated record together with
the other participant's firstName and lastName (the review response
projects only these two name fields, not the full six-field public
projection). -/
theorem review_persists_update (st : Store) (actor rid : Nat) (d : Status)
    (st2 : Store) (rec2 : ConnectionRequest) (np : NamePair)
    (h : review st actor rid d = Except.ok (st2, rec2, np)) :
    rec2.status = d ∧ rec2.updatedAt = st.now ∧ rec2 ∈ st2.requests ∧
    ∃ u ∈ st.users, u.id = rec2.fromUserId ∧
      np = { firstName := u.firstName, lastName := u.lastName } := by
  obtain ⟨-, cr, hcrmem, sender, hsmem, hf, hu, hrec2, hst2, hnp⟩ :=
    review_ok_unfold h
  refine ⟨by rw [hrec2], by rw [hrec2], ?_, sender, hsmem, ?_, hnp⟩
  · rw [hst2]
    rw [List.mem_map]
    exact ⟨cr, hcrmem, by simp⟩
  · have := List.find?_some hu
    rw [beq_iff_eq] at this
    rw [this, hrec2]

theorem review_persists_update_witness :
    demoAcceptedReq.status = Status.accept ∧
    demoAcceptedReq.updatedAt = demoStore.now ∧
    demoAcceptedReq ∈ demoStoreAfter.requests ∧
    ∃ u ∈ demoStore.users, u.id = demoAcceptedReq.fromUserId ∧
      NamePair.mk "Ann" "Ace" =
        { firstName := u.firstName, lastName := u.lastName } :=
  review_persists_update demoStore 2 10 Status.accept demoStoreAfter
    demoAcceptedReq { firstName := "Ann", lastName := "Ace" } (by decide)

/-- C10: a successful review modifies only the targeted record, and only
its status and updatedAt fields: the looked-up record keeps its id,
fromUserId, toUserId and createdAt; the users collection is untouched;
no request record is created or deleted; every other record is unchanged,
and nothing beyond the updated record appears in the new state. -/
theorem review_frame (st : Store) (actor rid : Nat) (d : Status)
    (st2 : Store) (rec2 : ConnectionRequest) (np : NamePair)
    (h : review st actor rid d = Except.ok (st2, rec2, np)) :
    st2.users = st.users ∧
    st2.requests.length = st.requests.length ∧
    (∃ cr ∈ st.requests, cr.id = rid ∧ cr.toUserId = actor ∧
      cr.status = Status.like ∧ rec2.id = cr.id ∧
      rec2.fromUserId = cr.fromUserId ∧ rec2.toUserId = cr.toUserId ∧
      rec2.createdAt = cr.createdAt ∧ rec2.status = d ∧
      rec2.updatedAt = st.now) ∧
    (∀ r ∈ st.requests, r.id ≠ rid → r ∈ st2.requests) ∧
    (∀ r2 ∈ st2.requests, r2 = rec2 ∨ r2 ∈ st.requests) := by
  obtain ⟨-, cr, hcrmem, sender, hsmem, hf, hu, hrec2, hst2, hnp⟩ :=
    review_ok_unfold h
  have hcr := List.find?_some hf
  simp only [reviewLookup, Bool.and_eq_true, beq_iff_eq] at hcr
  obtain ⟨⟨hcr1, hcr2⟩, hcr3⟩ := hcr
  refine ⟨by rw [hst2], ?_, ?_, ?_, ?_⟩
  · rw [hst2]
    exact List.length_map _ _
  · exact ⟨cr, hcrmem, hcr1, hcr2, hcr3, by rw [hrec2], by rw [hrec2],
      by rw [hrec2], by rw [hrec2], by rw [hrec2], by rw [hrec2]⟩
  · intro r hr hrid
    rw [hst2]
    rw [List.mem_map]
    refine ⟨r, hr, ?_⟩
    rw [if_neg ?_]
    intro hbeq
    rw [beq_iff_eq] at hbeq
    exact hrid (hbeq.trans hcr1)
  · intro r2 hr2
    rw [hst2] at hr2
    rw [List.mem_map] at hr2
    obtain ⟨r, hr, hfr⟩ := hr2
    by_cases hid : (r.id == cr.id) = true
    · rw [if_pos hid] at hfr
      exact Or.inl hfr.symm
    · rw [if_neg hid] at hfr
      exact Or.inr (hfr ▸ hr)

theorem review_frame_witness :
    demoStoreAfter.users = demoStore.users ∧
    demoStoreAfter.requests.length = demoStore.requests.length ∧
    (∃ cr ∈ demoStore.requests, cr.id = 10 ∧ cr.toUserId = 2 ∧
      cr.status = Status.like ∧ demoAcceptedReq.id = cr.id ∧
      demoAcceptedReq.fromUserId = cr.fromUserId ∧
      demoAcceptedReq.toUserId = cr.toUserId ∧
      demoAcceptedReq.createdAt = cr.createdAt ∧
      demoAcceptedReq.status = Status.accept ∧
      demoAcceptedReq.updatedAt = demoStore.now) ∧
    (∀ r ∈ demoStore.requests, r.id ≠ 10 → r ∈ demoStoreAfter.requests) ∧
    (∀ r2 ∈ demoStoreAfter.requests,
      r2 = demoAcceptedReq ∨ r2 ∈ demoStore.requests) :=
  review_frame demoStore 2 10 Status.accept demoStoreAfter demoAcceptedReq
    { firstName := "Ann", lastName := "Ace" } (by decide)

/-- C4: the feed for user A never contains A, and never contains either
participant of any stored connection request involving A, whatever its
status — in particular no user B linked to A by a request of any status
appears. -/
theorem feed_excludes_interactions (st : Store) (A : Nat)
    (pageQ limitQ : Option Int) (p : PublicProfile)
    (hp : p ∈ getFeedUsers st A pageQ limitQ) :
    p.id ≠ A ∧ ∀ r ∈ st.requests,
      (r.fromUserId = A ∨ r.toUserId = A) →
      r.fromUserId ≠ p.id ∧ r.toUserId ≠ p.id := by
  unfold getFeedUsers at hp
  have hp2 := List.mem_of_mem_drop (List.mem_of_mem_take hp)
  rw [List.mem_map] at hp2
  obtain ⟨u, hu, hup⟩ := hp2
  rw [List.mem_filter] at hu
  have hpred := hu.2
  unfold feedCandidate at hpred
  rw [Bool.and_eq_true] at hpred
  obtain ⟨hne, hnin⟩ := hpred
  have hpid : p.id = u.id := by rw [← hup]; rfl
  have hnotmem : u.id ∉ hideUserFromFeed st A := by
    intro hmem
    rw [Bool.not_eq_true'] at hnin
    rw [← List.elem_iff] at hmem
    exact absurd (hnin.symm.trans hmem) (by simp)
  constructor
  · rw [hpid]
    intro hEq
    rw [hEq] at hne
    simp at hne
  · intro r hr hinv
    constructor
    · intro hEq
      exact hnotmem (mem_hideUserFromFeed.mpr
        ⟨r, hr, hinv, Or.inl (by rw [hEq, hpid])⟩)
    · intro hEq
      exact hnotmem (mem_hideUserFromFeed.mpr
        ⟨r, hr, hinv, Or.inr (by rw [hEq, hpid])⟩)

theorem feed_excludes_interactions_witness :
    (publicProjection calUser).id ≠ 1 ∧
    ∀ r ∈ demoStore.requests, (r.fromUserId = 1 ∨ r.toUserId = 1) →
      r.fromUserId ≠ (publicProjection calUser).id ∧
      r.toUserId ≠ (publicProjection calUser).id :=
  feed_excludes_interactions demoStore 1 none none
    (publicProjection calUser) (by decide)

/-- C6: the feed candidates appear in the store's creation (insertion)
order — the page is a sublist of the projected users collection, so the
ordering key is stable and deterministic — and reads are pure: repeated
calls of getFeed, pendingFor and connectionsFor on an unchanged store
return identical results. -/
theorem feed_deterministic_order (st : Store) (uid : Nat)
    (pageQ limitQ : Option Int) :
    (getFeedUsers st uid pageQ limitQ).Sublist
      (st.users.map publicProjection) ∧
    getFeedUsers st uid pageQ limitQ = getFeedUsers st uid pageQ limitQ ∧
    pendingFor st uid = pendingFor st uid ∧
    connectionsFor st uid = connectionsFor st uid := by
  refine ⟨?_, rfl, rfl, rfl⟩
  unfold getFeedUsers
  exact (List.take_sublist _ _).trans ((List.drop_sublist _ _).trans
    ((List.filter_sublist _).map publicProjection))

/-- C8: every entry of connectionsFor(U) is the public projection of the
other participant of an accept-status record involving U and is never U
itself (given the data-model invariant fromUserId ≠ toUserId); and after
send(A,B,like) succeeds and B accepts the created request,
connectionsFor(A) contains B and connectionsFor(B) contains A. -/
theorem connections_other_participant (st : Store) :
    (∀ uid : Nat, (∀ r ∈ st.requests, r.fromUserId ≠ r.toUserId) →
      ∀ p ∈ connectionsFor st uid,
        p.id ≠ uid ∧ ∃ r ∈ st.requests, r.status = Status.accept ∧
          ((r.fromUserId = uid ∧ r.toUserId = p.id) ∨
           (r.toUserId = uid ∧ r.fromUserId = p.id))) ∧
    (∀ (A B : Nat) (st1 st2 : Store)
       (created rec2 : ConnectionRequest) (np : NamePair),
      (∃ u ∈ st.users, u.id = A) →
      (∀ r ∈ st.requests, r.id ≠ st.nextId) →
      send st A B Status.like = Except.ok (st1, created) →
      review st1 B created.id Status.accept = Except.ok (st2, rec2, np) →
      (∃ p ∈ connectionsFor st2 A, p.id = B) ∧
      (∃ p ∈ connectionsFor st2 B, p.id = A)) := by
  constructor
  · intro uid hinv p hp
    exact connectionsFor_mem_spec hinv hp
  · intro A B st1 st2 created rec2 np hA hfresh hsend hrev
    obtain ⟨-, hAB, hB, -, hcreated, hst1⟩ := send_ok_unfold hsend
    obtain ⟨-, cr, hcrmem, sender, hsmem, hf, hu, hrec2, hst2, hnp⟩ :=
      review_ok_unfold hrev
    have hst1users : st1.users = st.users := by rw [hst1]
    have hst2users : st2.users = st1.users := by rw [hst2]
    have hst1now : st1.now = st.now := by rw [hst1]
    -- the record found by the review lookup is the freshly created one
    have hcreq : cr = created := by
      have hfind : st1.requests.find?
          (reviewLookup B created.id) = some created := by
        rw [hst1]
        rw [List.find?_append]
        have hleft : st.requests.find? (reviewLookup B created.id) = none := by
          rw [List.find?_eq_none]
          intro r hr
          simp only [reviewLookup, Bool.and_eq_true, beq_iff_eq]
          rintro ⟨⟨h1, -⟩, -⟩
          exact hfresh r hr (by rw [h1, hcreated])
        rw [hleft]
        simp only [Option.none_or]
        have : reviewLookup B created.id created = true := by
          simp [reviewLookup, hcreated]
        simp [this]
      rw [hfind] at hf
      exact (Option.some.injEq _ _ ▸ hf).symm
    have hrecEq :
        rec2 = { created with status := Status.accept, updatedAt := st.now } := by
      rw [hrec2, hcreq, hst1now]
    have hrecmem : rec2 ∈ st2.requests := by
      rw [hst2]
      rw [List.mem_map]
      refine ⟨cr, hcrmem, by simp⟩
    have hrecFrom : rec2.fromUserId = A := by rw [hrecEq, hcreated]
    have hrecTo : rec2.toUserId = B := by rw [hrecEq, hcreated]
    have hrecStatus : rec2.status = Status.accept := by rw [hrecEq]
    obtain ⟨uB, huB, huBid⟩ := hB
    have hB2 : ∃ u ∈ st2.users, u.id = B := by
      rw [hst2users, hst1users]
      exact ⟨uB, huB, huBid⟩
    have hA2 : ∃ u ∈ st2.users, u.id = A := by
      rw [hst2users, hst1users]
      exact hA
    obtain ⟨vB, hvB, hvBid⟩ := findUserById_of_exists hB2
    obtain ⟨vA, hvA, hvAid⟩ := findUserById_of_exists hA2
    constructor
    · refine ⟨publicProjection vB, ?_, hvBid⟩
      unfold connectionsFor
      rw [List.mem_filterMap]
      refine ⟨rec2, ?_, ?_⟩
      · rw [List.mem_filter]
        refine ⟨hrecmem, ?_⟩
        simp [hrecFrom, hrecStatus]
      · simp only []
        rw [if_pos (by simp [hrecFrom]), hrecTo, hvB]
        rfl
    · refine ⟨publicProjection vA, ?_, hvAid⟩
      unfold connectionsFor
      rw [List.mem_filterMap]
      refine ⟨rec2, ?_, ?_⟩
      · rw [List.mem_filter]
        refine ⟨hrecmem, ?_⟩
        simp [hrecTo, hrecStatus]
      · simp only []
        rw [if_neg (by simp [hrecFrom, hrecTo]; exact hAB), hrecFrom, hvA]
        rfl

theorem connections_other_participant_witness :
    (∃ p ∈ connectionsFor demoScenarioStore2 1, p.id = 2) ∧
    (∃ p ∈ connectionsFor demoScenarioStore2 2, p.id = 1) :=
  (connections_other_participant demoStore0).2 1 2 demoScenarioStore1
    demoScenarioStore2 demoScenarioReq demoScenarioAccepted
    { firstName := "Ann", lastName := "Ace" }
    ⟨annUser, by decide, by decide⟩ (by decide) (by decide) (by decide)

/-- C3: `canSend(actorId, targetId)` holds iff actorId differs from
targetId, and a send whose actor equals its target never succeeds (so it
never creates a connection-request record), independently of when the
target-existence check runs. -/
theorem self_send_never_succeeds :
    (∀ a t : Nat, canSend a t = true ↔ a ≠ t) ∧
    (∀ (st : Store) (A : Nat) (x : Status) (out : Store × ConnectionRequest),
      send st A A x ≠ Except.ok out) := by
  constructor
  · intro a t
    simp [canSend]
  · intro st A x out h
    unfold send at h
    by_cases hx : allowedSendStatus x = true
    · rw [hx] at h
      simp only [Bool.not_true, Bool.false_eq_true, if_false] at h
      cases hfind : findUserById st A with
      | none => rw [hfind] at h; exact absurd h (by simp)
      | some u =>
        rw [hfind] at h
        cases hdup : st.requests.find? (pairMatches A A) with
        | some r => rw [hdup] at h; exact absurd h (by simp)
        | none =>
          rw [hdup] at h
          simp [connectionRequestSaveGuard] at h
    · rw [Bool.not_eq_true] at hx
      rw [hx] at h
      exact absurd h (by simp)

theorem self_send_never_succeeds_witness :
    send demoStore 1 1 Status.like ≠ Except.ok (demoStore, demoLikeReq) :=
  self_send_never_succeeds.2 demoStore 1 Status.like (demoStore, demoLikeReq)

/-- C5 counterexample: a requested limit of -5 is neither replaced by the
default 10 nor brought into [1, 50]; the code only caps the upper bound
and only 0 (falsy) falls back to the default. -/
theorem feed_limit_clamp_cex :
    effectiveLimit (some (-5)) = -5 ∧
    ¬(1 ≤ effectiveLimit (some (-5)) ∧ effectiveLimit (some (-5)) ≤ 50) ∧
    effectiveLimit (some (-5)) ≠ 10 := by
  decide

/-- C5 amended: a requested limit above 50 behaves as 50, a positive limit
up to 50 is used as is, limit 0 and an absent limit behave as the default
10, but a negative limit is passed through unchanged (no lower clamp); an
absent page behaves as page 1, a nonzero requested page is used as is, and
the slice offset equals (page-1)*limit. -/
theorem feed_pagination_amended (pageQ limitQ : Option Int) :
    (∀ l : Int, limitQ = some l → 50 < l → effectiveLimit limitQ = 50) ∧
    (∀ l : Int, limitQ = some l → 0 < l → l ≤ 50 → effectiveLimit limitQ = l) ∧
    effectiveLimit (some 0) = 10 ∧
    effectiveLimit none = 10 ∧
    (∀ l : Int, limitQ = some l → l < 0 → effectiveLimit limitQ = l) ∧
    effectivePage none = 1 ∧
    (∀ p : Int, pageQ = some p → p ≠ 0 → effectivePage pageQ = p) ∧
    feedSkip pageQ limitQ = (effectivePage pageQ - 1) * effectiveLimit limitQ := by
  refine ⟨?_, ?_, by decide, by decide, ?_, by decide, ?_, rfl⟩
  · intro l hl hgt
    subst hl
    simp only [effectiveLimit, effectiveLimitRaw, beq_iff_eq]
    split_ifs <;> omega
  · intro l hl hpos hle
    subst hl
    simp only [effectiveLimit, effectiveLimitRaw, beq_iff_eq]
    split_ifs <;> omega
  · intro l hl hneg
    subst hl
    simp only [effectiveLimit, effectiveLimitRaw, beq_iff_eq]
    split_ifs <;> omega
  · intro p hp hne
    subst hp
    simp only [effectivePage, beq_iff_eq]
    split_ifs <;> omega

theorem feed_pagination_amended_witness :
    effectiveLimit (some 100) = 50 ∧ effectiveLimit (some (-5)) = -5 ∧
    effectivePage (some 3) = 3 := by
  refine ⟨(feed_pagination_amended (some 3) (some 100)).1 100 rfl (by decide),
          ((feed_pagination_amended (some 3) (some (-5))).2.2.2.2).1 (-5) rfl
            (by decide),
          ((feed_pagination_amended (some 3)
              (some 100)).2.2.2.2.2.2).1 3 rfl (by decide)⟩

/-- C9 counterexample: a body carrying the non-whitelisted key `emailId`
makes `validUpdateData` return false, and the route then refuses the
update with "Invalid update data provided" instead of proceeding, so the
whitelist result does gate the update. -/
theorem update_whitelist_gate_cex :
    validUpdateData badUpdateBody = .ok false ∧
    updateProfile annUser badUpdateBody =
      .error "Invalid update data provided" ∧
    "emailId" ∈ badUpdateBody.map (fun p => p.1) ∧
    "emailId" ∉ ALLOWED_UPDATES := by
  refine ⟨rfl, rfl, by decide, by decide⟩

/-- C9 amended: the field-whitelist check's result is used to gate the
update: `validUpdateData` returns whether every body key is whitelisted,
and `PATCH /user/:id` throws instead of updating whenever that result is
false, so an update whose body contains a key outside the whitelist never
succeeds and copies nothing onto the user. -/
theorem update_whitelist_gate_amended (u : User)
    (body : List (String × JsVal))
    (h : ∃ k ∈ body.map (fun p => p.1), ALLOWED_UPDATES.contains k = false) :
    ∀ u2 : User, updateProfile u body ≠ Except.ok u2 := by
  intro u2 hok
  unfold updateProfile at hok
  cases hv : validUpdateData body with
  | error e => rw [hv] at hok; exact absurd hok (by simp)
  | ok b =>
    rw [hv] at hok
    cases hb : b with
    | false => rw [hb] at hok; exact absurd hok (by simp)
    | true =>
      have hall := validUpdateData_ok hv
      rw [hb] at hall
      obtain ⟨k, hk, hkc⟩ := h
      have := List.all_eq_true.mp hall.symm k hk
      rw [hkc] at this
      exact absurd this (by simp)

theorem update_whitelist_gate_witness :
    updateProfile annUser badUpdateBody ≠ Except.ok annUser :=
  update_whitelist_gate_amended annUser badUpdateBody
    ⟨"emailId", by decide, by decide⟩ annUser

end Trawell
